import Mathlib

/-!
Verification of the scene-timeline compositor of this repository
(src/core/video_generator.py and src/core/avatar_video_generator.py).

Durations are modelled as rational numbers. External collaborators
(speech synthesis, image synthesis, the font metric of PIL, the MoviePy
clip library) are modelled by explicit parameters:
an audio artifact is represented by the outcome of probing it
(absent / unreadable / measured duration), image synthesis by a success
flag, and the font metric by an arbitrary width function.
-/

namespace Compositor

/-- A scene record, after the loosely-typed script dictionary
(keys used by the compositor: 'dialogue', 'visual', 'duration',
'image_path', 'captions').  'duration' may be missing (`none`);
`hasImagePath` states that 'image_path' names an existing file. -/
structure Scene where
  dialogue : String
  visual : String
  duration : Option ℚ
  hasImagePath : Bool
  captions : String
deriving Repr, DecidableEq

/-- Outcome of probing a scene's audio artifact with AudioFileClip:
the file is absent, or present but undecodable, or its duration was
measured. -/
inductive AudioProbe where
  | absent : AudioProbe
  | unreadable : AudioProbe
  | measured : ℚ → AudioProbe
deriving Repr, DecidableEq

/-- Config.DEFAULT_SCENE_DURATION, also the literal default of
scene.get('duration', 5) in _create_scene_clip. -/
def defaultSceneDuration : ℚ := 5

/-- Duration resolution as performed identically in
_create_scene_clip (video_generator.py lines 112-126),
_create_avatar_scene_clip (avatar_video_generator.py lines 256-268),
_create_regular_scene_clip and _add_captions_timed:
duration = scene.get('duration', 5); if the audio file exists and
AudioFileClip can read it, its duration replaces the nominal value;
on absence or decode failure the nominal value (default 5) stands. -/
def resolveDuration (nominal : Option ℚ) (audio : AudioProbe) : ℚ :=
  match audio with
  | .measured d => d
  | .absent => nominal.getD defaultSceneDuration
  | .unreadable => nominal.getD defaultSceneDuration

/-- The resolved duration of a scene paired with its audio probe
outcome. -/
def durOf (p : Scene × AudioProbe) : ℚ :=
  resolveDuration p.1.duration p.2

/-- C1: for every scene the resolved duration equals the probed audio
duration whenever the audio exists and is probeable, with no blending
or clamping even under large divergence from the nominal duration; if
the audio is absent or probing fails, the resolved duration equals the
scene's nominal duration. -/
theorem resolved_duration_policy (n d : ℚ) :
    resolveDuration (some n) (AudioProbe.measured d) = d
    ∧ resolveDuration (some n) AudioProbe.absent = n
    ∧ resolveDuration (some n) AudioProbe.unreadable = n
    ∧ resolveDuration none AudioProbe.absent = defaultSceneDuration
    ∧ resolveDuration none AudioProbe.unreadable = defaultSceneDuration :=
  ⟨rfl, rfl, rfl, rfl, rfl⟩

/-- C6 counterexample: a scene with nominal duration 0 and no audio
resolves to duration 0, which is not strictly positive. -/
theorem resolved_duration_zero_counterexample :
    resolveDuration (some 0) AudioProbe.absent = 0
    ∧ ¬ (0 < resolveDuration (some 0) AudioProbe.absent) :=
  ⟨rfl, by rw [resolveDuration]; norm_num⟩

/-- C6 amended: the resolver passes nominal and measured values
through unchanged, so its output is strictly positive provided every
present nominal duration is strictly positive (a missing one defaults
to 5) and every measured audio duration is strictly positive. -/
theorem resolved_duration_pos (nominal : Option ℚ) (audio : AudioProbe)
    (hn : ∀ n, nominal = some n → 0 < n)
    (ha : ∀ d, audio = AudioProbe.measured d → 0 < d) :
    0 < resolveDuration nominal audio := by
  cases audio with
  | measured d => exact ha d rfl
  | absent =>
      cases nominal with
      | none => norm_num [resolveDuration, defaultSceneDuration]
      | some n => simpa [resolveDuration] using hn n rfl
  | unreadable =>
      cases nominal with
      | none => norm_num [resolveDuration, defaultSceneDuration]
      | some n => simpa [resolveDuration] using hn n rfl

/-- Witness for the amended C6 at nominal duration 5 with absent
audio. -/
theorem resolved_duration_pos_witness :
    0 < resolveDuration (some 5) AudioProbe.absent :=
  resolved_duration_pos (some 5) AudioProbe.absent
    (fun n h => by cases h; norm_num)
    (fun d h => by cases h)

/-- A transparent caption overlay clip: the rendered dialogue text,
its start offset on the timeline, and its duration. -/
structure CaptionClip where
  text : String
  start : ℚ
  duration : ℚ
deriving Repr, DecidableEq

/-- The caption loop of _add_captions_timed (video_generator.py lines
342-417, avatar_video_generator.py lines 612-686), with the running
current_time cursor made explicit: for each scene the resolved
duration is recomputed (audio probe first, nominal fallback); a scene
with non-empty dialogue contributes one caption clip starting at the
cursor and lasting the resolved duration; every scene advances the
cursor by its resolved duration. -/
def captionsFrom (cursor : ℚ) : List (Scene × AudioProbe) → List CaptionClip
  | [] => []
  | p :: rest =>
      if p.1.dialogue = "" then
        captionsFrom (cursor + durOf p) rest
      else
        ⟨p.1.dialogue, cursor, durOf p⟩ :: captionsFrom (cursor + durOf p) rest

/-- _add_captions_timed starts its cursor at 0.0. -/
def addCaptionsTimed (scenes : List (Scene × AudioProbe)) : List CaptionClip :=
  captionsFrom 0 scenes

/-- Sum of the resolved durations of the strictly-prior scenes. -/
def startOffset (scenes : List (Scene × AudioProbe)) (i : ℕ) : ℚ :=
  ((scenes.take i).map durOf).sum

/-- The caption clip the specification assigns to scene i: none when
the dialogue is empty, otherwise one clip starting at the sum of all
strictly-prior resolved durations and lasting the scene's resolved
duration. -/
def captionAt (scenes : List (Scene × AudioProbe)) (i : ℕ) : Option CaptionClip :=
  match scenes[i]? with
  | some p =>
      if p.1.dialogue = "" then none
      else some ⟨p.1.dialogue, startOffset scenes i, durOf p⟩
  | none => none

/-- Shift a caption clip's start offset. -/
def shiftClip (c : ℚ) (cl : CaptionClip) : CaptionClip :=
  { cl with start := c + cl.start }

theorem captionsFrom_shift (xs : List (Scene × AudioProbe)) (c : ℚ) :
    captionsFrom c xs = (captionsFrom 0 xs).map (shiftClip c) := by
  induction xs generalizing c with
  | nil => simp [captionsFrom]
  | cons p rest ih =>
      have hfun : ∀ d : ℚ, shiftClip c ∘ shiftClip (0 + d) = shiftClip (c + d) := by
        intro d
        funext cl
        simp [shiftClip, Function.comp, add_assoc]
      by_cases h : p.1.dialogue = ""
      · simp only [captionsFrom, if_pos h]
        rw [ih (c + durOf p), ih (0 + durOf p), List.map_map, hfun]
      · simp only [captionsFrom, if_neg h, List.map_cons]
        rw [ih (c + durOf p), ih (0 + durOf p), List.map_map, hfun]
        congr 1
        simp [shiftClip]

theorem captionAt_cons_zero (p : Scene × AudioProbe) (rest : List (Scene × AudioProbe)) :
    captionAt (p :: rest) 0
      = if p.1.dialogue = "" then none else some ⟨p.1.dialogue, 0, durOf p⟩ := by
  unfold captionAt
  simp [startOffset]

theorem captionAt_cons_succ (p : Scene × AudioProbe) (rest : List (Scene × AudioProbe)) (i : ℕ) :
    captionAt (p :: rest) (i + 1) = (captionAt rest i).map (shiftClip (durOf p)) := by
  unfold captionAt
  rw [List.getElem?_cons_succ]
  cases h : rest[i]? with
  | none => simp
  | some q =>
      by_cases hd : q.1.dialogue = ""
      · simp [hd]
      · simp [hd, shiftClip, startOffset, List.take_succ_cons]

/-- C2: the caption overlay engine emits exactly one caption clip per
scene with non-empty dialogue, starting at the sum of all
strictly-prior scenes' resolved durations and lasting exactly that
scene's resolved duration; a scene with empty dialogue produces no
caption clip but still advances the cumulative cursor by its resolved
duration. -/
theorem caption_overlay_timing (scenes : List (Scene × AudioProbe)) :
    addCaptionsTimed scenes = (List.range scenes.length).filterMap (captionAt scenes) := by
  induction scenes with
  | nil => simp [addCaptionsTimed, captionsFrom]
  | cons p rest ih =>
      have hcomp : captionAt (p :: rest) ∘ Nat.succ
          = fun i => (captionAt rest i).map (shiftClip (durOf p)) := by
        funext i
        exact captionAt_cons_succ p rest i
      have htail : (List.range rest.length).filterMap (fun i =>
              (captionAt rest i).map (shiftClip (durOf p)))
          = ((List.range rest.length).filterMap (captionAt rest)).map
              (shiftClip (durOf p)) :=
        (List.map_filterMap _ _ _).symm
      rw [List.length_cons, List.range_succ_eq_map, List.filterMap_cons,
        captionAt_cons_zero, List.filterMap_map, hcomp, htail, ← ih]
      by_cases h : p.1.dialogue = ""
      · simp only [if_pos h]
        show captionsFrom 0 (p :: rest) = (addCaptionsTimed rest).map (shiftClip (durOf p))
        rw [addCaptionsTimed]
        simp only [captionsFrom, if_pos h, zero_add]
        exact captionsFrom_shift rest (durOf p)
      · simp only [if_neg h]
        show captionsFrom 0 (p :: rest)
            = ⟨p.1.dialogue, 0, durOf p⟩ :: (addCaptionsTimed rest).map (shiftClip (durOf p))
        rw [addCaptionsTimed]
        simp only [captionsFrom, if_neg h, zero_add]
        rw [captionsFrom_shift rest (durOf p)]

/-- Replace the 'captions' override field of a scene record. -/
def setCaptionsField (s : Scene) (c : String) : Scene :=
  { s with captions := c }

theorem captionsFrom_override (f : Scene → String) (xs : List (Scene × AudioProbe)) (c : ℚ) :
    captionsFrom c (xs.map (fun p => (setCaptionsField p.1 (f p.1), p.2)))
      = captionsFrom c xs := by
  induction xs generalizing c with
  | nil => rfl
  | cons p rest ih =>
      simp only [List.map_cons, captionsFrom, setCaptionsField, durOf, resolveDuration]
      by_cases h : p.1.dialogue = ""
      · simp only [if_pos h]
        exact ih _
      · simp only [if_neg h, List.cons.injEq]
        exact ⟨trivial, ih _⟩

theorem captionsFrom_text_mem (xs : List (Scene × AudioProbe)) :
    ∀ (c : ℚ), ∀ cl ∈ captionsFrom c xs, ∃ p ∈ xs, cl.text = p.1.dialogue := by
  induction xs with
  | nil => intro c cl hcl; simp [captionsFrom] at hcl
  | cons p rest ih =>
      intro c cl hcl
      by_cases h : p.1.dialogue = ""
      · simp only [captionsFrom, if_pos h] at hcl
        obtain ⟨q, hq, ht⟩ := ih (c + durOf p) cl hcl
        exact ⟨q, List.mem_cons_of_mem p hq, ht⟩
      · simp only [captionsFrom, if_neg h] at hcl
        rcases List.mem_cons.mp hcl with heq | hmem
        · exact ⟨p, List.mem_cons_self p rest, by rw [heq]⟩
        · obtain ⟨q, hq, ht⟩ := ih (c + durOf p) cl hmem
          exact ⟨q, List.mem_cons_of_mem p hq, ht⟩

/-- C10: the caption overlay engine renders only the scene's dialogue
field; the 'captions' override field is never read, so rewriting it on
every scene leaves the overlay output unchanged, and every rendered
caption's text is some scene's dialogue. -/
theorem captions_override_never_read (scenes : List (Scene × AudioProbe)) (f : Scene → String) :
    addCaptionsTimed (scenes.map (fun p => (setCaptionsField p.1 (f p.1), p.2)))
      = addCaptionsTimed scenes
    ∧ ∀ cl ∈ addCaptionsTimed scenes, ∃ p ∈ scenes, cl.text = p.1.dialogue :=
  ⟨captionsFrom_override f scenes 0, captionsFrom_text_mem scenes 0⟩

/-- A concrete two-scene script used by witnesses: one scene with
dialogue and a caption override, one silent scene. -/
def sampleScript : List (Scene × AudioProbe) :=
  [(⟨"hello", "v", some 2, false, "OVERRIDE"⟩, AudioProbe.absent),
   (⟨"", "w", some 3, false, "OVERRIDE2"⟩, AudioProbe.absent)]

/-- Witness for C10 on a concrete two-scene script with an override
supplied on each scene. -/
theorem captions_override_never_read_witness :
    addCaptionsTimed (sampleScript.map (fun p => (setCaptionsField p.1 "X", p.2)))
      = addCaptionsTimed sampleScript
    ∧ ∀ cl ∈ addCaptionsTimed sampleScript,
        ∃ p ∈ sampleScript, cl.text = p.1.dialogue :=
  captions_override_never_read sampleScript (fun _ => "X")

/-- A scene clip on the primary track: its duration and whether a
crossfade-in was applied to it.  with_crossfadein only installs a
fade-in blend on the clip; concatenate_videoclips then places clips
back to back, so a clip's contribution to start offsets and to the
declared total duration is its duration alone. -/
structure StitchClip where
  duration : ℚ
  crossfadeIn : Bool
deriving Repr, DecidableEq

/-- transition_duration = 0.5 in generate / create_avatar_video. -/
def transitionDuration : ℚ := 1/2

/-- with_crossfadein: marks the clip as crossfaded-in; duration is
untouched. -/
def withCrossfadein (c : StitchClip) : StitchClip :=
  { c with crossfadeIn := true }

/-- One iteration of the transition loop (video_generator.py lines
73-93, avatar_video_generator.py lines 149-169): the current clip is
crossfaded in when both the previously appended clip and the current
clip are strictly longer than the crossfade window, otherwise appended
unchanged (hard cut). -/
def stitchStep (acc : List StitchClip) (curr : StitchClip) : List StitchClip :=
  match acc.getLast? with
  | some prev =>
      if transitionDuration < prev.duration ∧ transitionDuration < curr.duration then
        acc ++ [withCrossfadein curr]
      else acc ++ [curr]
  | none => acc ++ [curr]

/-- The transition loop: final_clips starts as [clips[0]] and each
subsequent clip is folded in by stitchStep. -/
def applyTransitions : List StitchClip → List StitchClip
  | [] => []
  | c :: rest => rest.foldl stitchStep [c]

/-- Declared total duration of concatenate_videoclips: the sum of the
clip durations (no overlap is subtracted for crossfades). -/
def concatenateTotal (clips : List StitchClip) : ℚ :=
  (clips.map StitchClip.duration).sum

/-- Start offsets assigned by concatenation: each clip starts where
the previous one ends. -/
def clipStartsFrom (cursor : ℚ) : List StitchClip → List ℚ
  | [] => []
  | c :: rest => cursor :: clipStartsFrom (cursor + c.duration) rest

/-- Start offsets of a concatenated track, from 0. -/
def clipStarts (clips : List StitchClip) : List ℚ :=
  clipStartsFrom 0 clips

theorem stitchStep_durations (acc : List StitchClip) (curr : StitchClip) :
    (stitchStep acc curr).map StitchClip.duration
      = acc.map StitchClip.duration ++ [curr.duration] := by
  unfold stitchStep
  cases acc.getLast? with
  | none => simp
  | some prev =>
      by_cases h : transitionDuration < prev.duration ∧ transitionDuration < curr.duration
      · simp [if_pos h, withCrossfadein]
      · simp [if_neg h]

theorem foldl_stitchStep_durations (l : List StitchClip) :
    ∀ acc : List StitchClip,
      ((l.foldl stitchStep acc).map StitchClip.duration)
        = acc.map StitchClip.duration ++ l.map StitchClip.duration := by
  induction l with
  | nil => intro acc; simp
  | cons c rest ih =>
      intro acc
      rw [List.foldl_cons, ih, stitchStep_durations]
      simp

theorem applyTransitions_durations (clips : List StitchClip) :
    (applyTransitions clips).map StitchClip.duration = clips.map StitchClip.duration := by
  cases clips with
  | nil => rfl
  | cons c rest =>
      rw [applyTransitions, foldl_stitchStep_durations]
      rfl

theorem clipStartsFrom_congr (xs : List StitchClip) :
    ∀ (ys : List StitchClip),
      xs.map StitchClip.duration = ys.map StitchClip.duration →
      ∀ c : ℚ, clipStartsFrom c xs = clipStartsFrom c ys := by
  induction xs with
  | nil =>
      intro ys h c
      cases ys with
      | nil => rfl
      | cons y ys => simp at h
  | cons x xs ih =>
      intro ys h c
      cases ys with
      | nil => simp at h
      | cons y ys =>
          simp only [List.map_cons, List.cons.injEq] at h
          rw [clipStartsFrom, clipStartsFrom, h.1]
          exact congrArg (List.cons c) (ih ys h.2 _)

/-- C4: applying the transition stitcher's crossfades changes no
clip's start offset or duration; the declared total duration of the
concatenated primary track is the exact sum of the per-scene resolved
durations, with no overlap subtracted for crossfades. -/
theorem transition_stitcher_preserves_timing (clips : List StitchClip)
    (scenes : List (Scene × AudioProbe)) :
    (applyTransitions clips).map StitchClip.duration = clips.map StitchClip.duration
    ∧ concatenateTotal (applyTransitions clips) = (clips.map StitchClip.duration).sum
    ∧ clipStarts (applyTransitions clips) = clipStarts clips
    ∧ concatenateTotal (applyTransitions (scenes.map (fun p => ⟨durOf p, false⟩)))
        = (scenes.map durOf).sum := by
  refine ⟨applyTransitions_durations clips, ?_, ?_, ?_⟩
  · rw [concatenateTotal, applyTransitions_durations]
  · exact clipStartsFrom_congr _ _ (applyTransitions_durations clips) 0
  · rw [concatenateTotal, applyTransitions_durations, List.map_map]
    rfl

/-- Per-scene clip construction as seen by the timeline assembler: an
external build attempt that either yields a usable clip or fails
(exception caught, or a None clip). -/
def usableClips (scenes : List Scene) (build : Scene → Option StitchClip) : List StitchClip :=
  scenes.filterMap build

/-- generate (video_generator.py lines 24-110): returns None when the
scene list is empty; per-scene build failures are dropped and the loop
continues; returns None when zero usable clips were produced;
otherwise stitches the usable clips and returns the rendered
artifact's timeline. -/
def generate (scenes : List Scene) (build : Scene → Option StitchClip) : Option (List StitchClip) :=
  if scenes.isEmpty then none
  else if (usableClips scenes build).isEmpty then none
  else some (applyTransitions (usableClips scenes build))

/-- C3: generate returns no artifact only when the scene list is empty
or zero usable scene clips were produced; a scene whose clip cannot be
built is dropped and the build continues with the remaining scenes. -/
theorem generate_failure_policy (scenes : List Scene) (build : Scene → Option StitchClip) :
    (generate scenes build = none ↔ scenes = [] ∨ usableClips scenes build = [])
    ∧ (usableClips scenes build = [] ↔ ∀ s ∈ scenes, build s = none)
    ∧ (generate scenes build = none
        ∨ generate scenes build = some (applyTransitions (usableClips scenes build)))
    ∧ (∀ s : Scene, build s = none →
        usableClips (s :: scenes) build = usableClips scenes build)
    ∧ (∀ (s : Scene) (c : StitchClip), build s = some c →
        usableClips (s :: scenes) build = c :: usableClips scenes build) := by
  refine ⟨?_, ?_, ?_, ?_, ?_⟩
  · unfold generate
    constructor
    · intro h
      by_cases hs : scenes.isEmpty
      · exact Or.inl (List.isEmpty_iff.mp hs)
      · rw [if_neg hs] at h
        by_cases hu : (usableClips scenes build).isEmpty
        · exact Or.inr (List.isEmpty_iff.mp hu)
        · rw [if_neg hu] at h
          exact absurd h (by simp)
    · intro h
      rcases h with h | h
      · rw [if_pos (List.isEmpty_iff.mpr h)]
      · by_cases hs : scenes.isEmpty
        · rw [if_pos hs]
        · rw [if_neg hs, if_pos (List.isEmpty_iff.mpr h)]
  · exact List.filterMap_eq_nil_iff
  · unfold generate
    by_cases hs : scenes.isEmpty
    · exact Or.inl (by rw [if_pos hs])
    · by_cases hu : (usableClips scenes build).isEmpty
      · exact Or.inl (by rw [if_neg hs, if_pos hu])
      · exact Or.inr (by rw [if_neg hs, if_neg hu])
  · intro s h
    simp [usableClips, List.filterMap_cons, h]
  · intro s c h
    simp [usableClips, List.filterMap_cons, h]

/-- Witness for C3: the empty scene list yields no artifact, and a
script whose every build fails yields zero usable clips. -/
theorem generate_failure_policy_witness :
    generate ([] : List Scene) (fun _ => none) = none
    ∧ usableClips (sampleScript.map Prod.fst) (fun _ => none) = [] :=
  ⟨(generate_failure_policy [] (fun _ => none)).1.mpr (Or.inl rfl),
    (generate_failure_policy (sampleScript.map Prod.fst) (fun _ => none)).2.1.mpr
      (fun _ _ => rfl)⟩

/-- Total timeline duration of a pipeline run, when it produces an
artifact. -/
def totalTimelineDuration (scenes : List Scene) (build : Scene → Option StitchClip) : Option ℚ :=
  (generate scenes build).map concatenateTotal

/-- C9: with deterministic collaborator stubs (the per-scene build
function bundles the audio, image and text-transform results), running
the pipeline twice on an identical script yields the same total
timeline duration. -/
theorem pipeline_deterministic (s1 s2 : List Scene)
    (b1 b2 : Scene → Option StitchClip) (hs : s1 = s2) (hb : b1 = b2) :
    totalTimelineDuration s1 b1 = totalTimelineDuration s2 b2 := by
  rw [hs, hb]

/-- Witness for C9 on a concrete script with a concrete stub. -/
theorem pipeline_deterministic_witness :
    totalTimelineDuration (sampleScript.map Prod.fst) (fun _ => some ⟨5, false⟩)
      = totalTimelineDuration (sampleScript.map Prod.fst) (fun _ => some ⟨5, false⟩) :=
  pipeline_deterministic _ _ _ _ rfl rfl

/-- The visual source a scene clip ends up with. -/
inductive VisualChoice where
  | preImage : VisualChoice
  | singleImage : VisualChoice
  | imageSequence : ℕ → VisualChoice
  | placeholder : VisualChoice
deriving Repr, DecidableEq

/-- _generate_visual: synthesizes one image; every synthesis failure
is caught internally and replaced by _create_fallback_image, the
programmatic placeholder (solid background with word-wrapped text). -/
def generateVisual (synthOk : Bool) : VisualChoice :=
  if synthOk then VisualChoice.singleImage else VisualChoice.placeholder

/-- num_images = max(2, min(4, int(total_duration // 2) or 2)) in
_generate_visual_sequence (video_generator.py line 271). -/
def numVariantImages (totalDuration : ℚ) : ℕ :=
  (max 2 (min 4 (if ⌊totalDuration / 2⌋ = 0 then 2 else ⌊totalDuration / 2⌋))).toNat

/-- sub_duration = total_duration / num_images. -/
def variantSubDuration (totalDuration : ℚ) : ℚ :=
  totalDuration / (numVariantImages totalDuration : ℚ)

/-- The visual-source selection of _create_scene_clip
(video_generator.py lines 136-167): a pre-supplied existing image
wins; otherwise for resolved duration ≥ 4 the multi-image sequence is
synthesized (an exception from it falls back to the single image
path); otherwise the single image path runs, which itself degrades to
the programmatic placeholder when synthesis fails. -/
def chooseVisual (hasPreImage : Bool) (duration : ℚ) (seqRaises synthOk : Bool) : VisualChoice :=
  if hasPreImage then VisualChoice.preImage
  else if 4 ≤ duration then
    if seqRaises then generateVisual synthOk
    else VisualChoice.imageSequence (numVariantImages duration)
  else generateVisual synthOk

theorem numVariantImages_bounds (d : ℚ) :
    2 ≤ numVariantImages d ∧ numVariantImages d ≤ 4 := by
  unfold numVariantImages
  constructor
  · have h : (2:ℤ) ≤ max 2 (min 4 (if ⌊d / 2⌋ = 0 then 2 else ⌊d / 2⌋)) := le_max_left _ _
    exact Int.toNat_le_toNat h
  · have h : max 2 (min 4 (if ⌊d / 2⌋ = 0 then 2 else ⌊d / 2⌋)) ≤ (4:ℤ) :=
      max_le (by norm_num) (min_le_left _ _)
    exact Int.toNat_le_toNat h

theorem variant_images_cover (d : ℚ) :
    (List.replicate (numVariantImages d) (variantSubDuration d)).sum = d := by
  have h2 : 2 ≤ numVariantImages d := (numVariantImages_bounds d).1
  have hn : ((numVariantImages d : ℚ)) ≠ 0 := by
    have : (0:ℕ) < numVariantImages d := lt_of_lt_of_le (by norm_num) h2
    exact_mod_cast Nat.pos_iff_ne_zero.mp this
  rw [List.sum_replicate, nsmul_eq_mul, variantSubDuration, mul_comm,
    div_mul_cancel₀ _ hn]

/-- C5: the visual-source fallback chain: a pre-supplied still image
wins; the 2-4-image sequence is used only when no pre-supplied image
exists and the resolved duration is at least 4, with each variant
occupying duration divided by the variant count; the programmatic
placeholder is reached only when neither a pre-supplied image nor a
synthesized image is available; with a duration below 4 and working
synthesis the freshly synthesized single image is used. -/
theorem visual_fallback_chain (hasPreImage seqRaises synthOk : Bool) (d : ℚ) :
    (hasPreImage = true → chooseVisual hasPreImage d seqRaises synthOk = VisualChoice.preImage)
    ∧ (∀ n : ℕ, chooseVisual hasPreImage d seqRaises synthOk = VisualChoice.imageSequence n →
        hasPreImage = false ∧ 4 ≤ d ∧ n = numVariantImages d ∧ 2 ≤ n ∧ n ≤ 4
          ∧ (List.replicate n (variantSubDuration d)).sum = d)
    ∧ (chooseVisual hasPreImage d seqRaises synthOk = VisualChoice.placeholder →
        hasPreImage = false ∧ synthOk = false)
    ∧ (hasPreImage = false → synthOk = true → ¬ (4 ≤ d) →
        chooseVisual hasPreImage d seqRaises synthOk = VisualChoice.singleImage) := by
  cases hasPreImage with
  | true => refine ⟨fun _ => rfl, ?_, ?_, ?_⟩ <;> simp [chooseVisual]
  | false =>
      refine ⟨by simp, ?_, ?_, ?_⟩
      · intro n hn
        by_cases h4 : 4 ≤ d
        · cases seqRaises with
          | true =>
              exfalso
              cases synthOk <;> simp [chooseVisual, h4, generateVisual] at hn
          | false =>
              simp only [chooseVisual, if_neg Bool.false_ne_true, if_pos h4,
                if_neg Bool.false_ne_true, VisualChoice.imageSequence.injEq] at hn
              subst hn
              exact ⟨rfl, h4, rfl, (numVariantImages_bounds d).1,
                (numVariantImages_bounds d).2, variant_images_cover d⟩
        · exfalso
          cases synthOk <;> simp [chooseVisual, h4, generateVisual] at hn
      · intro hp
        refine ⟨rfl, ?_⟩
        cases synthOk with
        | true =>
            exfalso
            by_cases h4 : 4 ≤ d <;> cases seqRaises <;>
              simp [chooseVisual, h4, generateVisual] at hp
        | false => rfl
      · intro _ hsynth h4
        subst hsynth
        simp [chooseVisual, h4, generateVisual]

/-- Witness for C5 at a pre-image-less scene of duration 6 with a
working image-sequence synthesis: three variants of two time units
each. -/
theorem visual_fallback_chain_witness :
    chooseVisual false 6 false true = VisualChoice.imageSequence (numVariantImages 6)
    ∧ (4 ≤ (6:ℚ)) ∧ 2 ≤ numVariantImages 6 ∧ numVariantImages 6 ≤ 4
    ∧ (List.replicate (numVariantImages 6) (variantSubDuration 6)).sum = 6 := by
  have happ := (visual_fallback_chain false false true 6).2.1 (numVariantImages 6)
    (by simp [chooseVisual]; norm_num)
  exact ⟨by simp [chooseVisual]; norm_num, happ.2.1, happ.2.2.2.1, happ.2.2.2.2.1,
    happ.2.2.2.2.2⟩

/-- avatar_width = resolution[0] // 4
(avatar_video_generator.py line 51). -/
def avatarPaneWidth (canvasWidth : ℕ) : ℕ :=
  canvasWidth / 4

/-- content_width = resolution[0] - avatar_width
(avatar_video_generator.py line 52). -/
def contentPaneWidth (canvasWidth : ℕ) : ℕ :=
  canvasWidth - canvasWidth / 4

/-- C7 counterexample: with a 1366-pixel-wide canvas the avatar pane
is 341 pixels, and 341 / 1366 is not exactly 0.25. -/
theorem pane_ratio_counterexample :
    avatarPaneWidth 1366 = 341
    ∧ ¬ ((avatarPaneWidth 1366 : ℚ) / 1366 = 1 / 4) := by
  constructor
  · rfl
  · norm_num [avatarPaneWidth]

/-- C7 amended: the two pane widths always sum to the canvas width,
and the ratios are exactly 0.25 and 0.75 whenever the canvas width is
divisible by 4 (as with the configured 1920-wide canvas); in general
the avatar pane is the floor of a quarter of the width. -/
theorem pane_widths_amended (w : ℕ) :
    avatarPaneWidth w + contentPaneWidth w = w
    ∧ (4 ∣ w → 0 < w →
        (avatarPaneWidth w : ℚ) / w = 1 / 4
        ∧ (contentPaneWidth w : ℚ) / w = 3 / 4) := by
  constructor
  · unfold avatarPaneWidth contentPaneWidth
    omega
  · intro hdvd hw
    obtain ⟨k, rfl⟩ := hdvd
    have hk : 0 < k := by omega
    have ha : avatarPaneWidth (4 * k) = k := by unfold avatarPaneWidth; omega
    have hc : contentPaneWidth (4 * k) = 3 * k := by unfold contentPaneWidth; omega
    refine ⟨?_, ?_⟩
    · rw [ha]
      push_cast
      rw [div_eq_div_iff (by positivity) (by norm_num)]
      ring
    · rw [hc]
      push_cast
      rw [div_eq_div_iff (by positivity) (by norm_num)]
      ring

/-- Witness for the amended C7 at the configured canvas width 1920:
panes of 480 and 1440 pixels, summing to 1920, with ratios exactly
0.25 and 0.75. -/
theorem pane_widths_amended_witness :
    avatarPaneWidth 1920 + contentPaneWidth 1920 = 1920
    ∧ (4 ∣ 1920) ∧ (0 < 1920)
    ∧ (avatarPaneWidth 1920 : ℚ) / 1920 = 1 / 4
    ∧ (contentPaneWidth 1920 : ℚ) / 1920 = 3 / 4 :=
  ⟨(pane_widths_amended 1920).1, by norm_num, by norm_num,
    ((pane_widths_amended 1920).2 (by norm_num) (by norm_num)).1,
    ((pane_widths_amended 1920).2 (by norm_num) (by norm_num)).2⟩

/-- max_width = width - 80 in _add_captions_timed
(video_generator.py line 381, avatar_video_generator.py line 651). -/
def captionMaxWidth (canvasWidth : ℕ) : ℕ :=
  canvasWidth - 80

/-- The greedy word-packing loop of _add_captions_timed
(video_generator.py lines 382-395): candidate = current line plus next
word; if the measured width of the candidate fits the bound it becomes
the current line, otherwise the current line (if non-empty) is emitted
and the word starts a new line; a final non-empty line is emitted at
the end.  The font metric (draw.textbbox) is the parameter widthOf. -/
def wrapAux (widthOf : String → ℕ) (maxWidth : ℕ) (current : String) :
    List String → List String
  | [] => if current = "" then [] else [current]
  | w :: ws =>
      if widthOf (if current = "" then w else current ++ " " ++ w) ≤ maxWidth then
        wrapAux widthOf maxWidth (if current = "" then w else current ++ " " ++ w) ws
      else if current = "" then
        wrapAux widthOf maxWidth w ws
      else
        current :: wrapAux widthOf maxWidth w ws

/-- The loop starts with an empty current line. -/
def wrapLines (widthOf : String → ℕ) (maxWidth : ℕ) (words : List String) : List String :=
  wrapAux widthOf maxWidth "" words

/-- C8 counterexample: a single word measuring 1900 units under the
font metric (100 units per character) is emitted as its own line on a
1920-wide canvas, and 1900 exceeds the bound 1920 - 80 = 1840. -/
theorem caption_line_overflow_counterexample :
    wrapLines (fun s => 100 * s.length) (captionMaxWidth 1920) ["abcdefghijklmnopqrs"]
      = ["abcdefghijklmnopqrs"]
    ∧ captionMaxWidth 1920 < 100 * (String.length "abcdefghijklmnopqrs") := by
  constructor
  · rfl
  · decide

theorem wrapAux_bound (widthOf : String → ℕ) (maxWidth : ℕ) (words : List String)
    (hwords : ∀ w ∈ words, widthOf w ≤ maxWidth) :
    ∀ current : String, (current = "" ∨ widthOf current ≤ maxWidth) →
      ∀ l ∈ wrapAux widthOf maxWidth current words, widthOf l ≤ maxWidth := by
  induction words with
  | nil =>
      intro current hcur l hl
      rw [wrapAux] at hl
      by_cases h : current = ""
      · simp [h] at hl
      · rw [if_neg h] at hl
        rcases List.mem_singleton.mp hl with rfl
        rcases hcur with h0 | hb
        · exact absurd h0 h
        · exact hb
  | cons w ws ih =>
      intro current hcur l hl
      have hw : widthOf w ≤ maxWidth := hwords w (List.mem_cons_self w ws)
      have hws : ∀ v ∈ ws, widthOf v ≤ maxWidth :=
        fun v hv => hwords v (List.mem_cons_of_mem w hv)
      rw [wrapAux] at hl
      by_cases hfit : widthOf (if current = "" then w else current ++ " " ++ w) ≤ maxWidth
      · rw [if_pos hfit] at hl
        exact ih hws _ (Or.inr hfit) l hl
      · rw [if_neg hfit] at hl
        by_cases h0 : current = ""
        · rw [if_pos h0] at hl
          exact ih hws w (Or.inr hw) l hl
        · rw [if_neg h0] at hl
          rcases List.mem_cons.mp hl with rfl | hmem
          · rcases hcur with hcur | hcur
            · exact absurd hcur h0
            · exact hcur
          · exact ih hws w (Or.inr hw) l hmem

/-- C8 amended: the caption layout greedily packs words into lines
bounded by canvas width minus the fixed margin, starting a new line
before any word whose addition would exceed the bound; provided every
single word's rendered width is within the bound, no emitted caption
line's width exceeds the bound (a word wider than the bound occupies a
line by itself, which exceeds it). -/
theorem caption_lines_bounded (widthOf : String → ℕ) (maxWidth : ℕ) (words : List String)
    (hwords : ∀ w ∈ words, widthOf w ≤ maxWidth) :
    ∀ l ∈ wrapLines widthOf maxWidth words, widthOf l ≤ maxWidth :=
  wrapAux_bound widthOf maxWidth words hwords "" (Or.inl rfl)

/-- Witness for the amended C8: "hello world" fits on one line within
the 1840-unit bound of the 1920-wide canvas. -/
theorem caption_lines_bounded_witness :
    (∀ w ∈ ["hello", "world"], 100 * String.length w ≤ captionMaxWidth 1920)
    ∧ ∀ l ∈ wrapLines (fun s => 100 * s.length) (captionMaxWidth 1920) ["hello", "world"],
        100 * String.length l ≤ captionMaxWidth 1920 :=
  ⟨by decide, caption_lines_bounded (fun s => 100 * s.length) (captionMaxWidth 1920)
    ["hello", "world"] (by decide)⟩

end Compositor
